import Mathlib

/-!
Verification of the event-driven TCP echo server (src/main.py) against its
specification.  The embedding models:

* bytes and decoded strings as `List Nat` (byte values / Unicode code points);
* Python's strict UTF-8 `bytes.decode` / `str.encode` as `utf8Decode` /
  `utf8Encode`;
* the `selectors` registration table as an association list from sockets to
  the string tag passed as `data=`;
* the server's per-connection read/echo/close cycle (`process_client_io`),
  accept path, and dispatch loop (`main`'s `while True`) as functions that
  return the list of observable actions they perform together with either
  the updated state or the Python exception that propagated.
-/

namespace AsyncTcp

set_option maxRecDepth 8000

/-- One step of Python's strict UTF-8 decoder: consume the leading scalar of
the byte list, returning the code point and the remaining bytes, or `none`
when the head is not a well-formed (shortest-form, non-surrogate) sequence. -/
def decodeOne : List Nat → Option (Nat × List Nat)
  | [] => none
  | b0 :: rest =>
    if b0 < 0x80 then some (b0, rest)
    else if 0xC2 ≤ b0 ∧ b0 ≤ 0xDF then
      match rest with
      | b1 :: r =>
        if 0x80 ≤ b1 ∧ b1 < 0xC0 then
          some ((b0 - 0xC0) * 64 + (b1 - 0x80), r)
        else none
      | [] => none
    else if 0xE0 ≤ b0 ∧ b0 ≤ 0xEF then
      match rest with
      | b1 :: b2 :: r =>
        if ((b0 = 0xE0 ∧ 0xA0 ≤ b1 ∧ b1 < 0xC0) ∨
            (b0 = 0xED ∧ 0x80 ≤ b1 ∧ b1 < 0xA0) ∨
            (b0 ≠ 0xE0 ∧ b0 ≠ 0xED ∧ 0x80 ≤ b1 ∧ b1 < 0xC0)) ∧
           (0x80 ≤ b2 ∧ b2 < 0xC0) then
          some ((b0 - 0xE0) * 4096 + (b1 - 0x80) * 64 + (b2 - 0x80), r)
        else none
      | _ => none
    else if 0xF0 ≤ b0 ∧ b0 ≤ 0xF4 then
      match rest with
      | b1 :: b2 :: b3 :: r =>
        if ((b0 = 0xF0 ∧ 0x90 ≤ b1 ∧ b1 < 0xC0) ∨
            (b0 = 0xF4 ∧ 0x80 ≤ b1 ∧ b1 < 0x90) ∨
            (b0 ≠ 0xF0 ∧ b0 ≠ 0xF4 ∧ 0x80 ≤ b1 ∧ b1 < 0xC0)) ∧
           (0x80 ≤ b2 ∧ b2 < 0xC0) ∧ (0x80 ≤ b3 ∧ b3 < 0xC0) then
          some ((b0 - 0xF0) * 262144 + (b1 - 0x80) * 4096 +
                  (b2 - 0x80) * 64 + (b3 - 0x80), r)
        else none
      | _ => none
    else none

/-- Fuelled strict UTF-8 decode of a whole byte list (each step of
`decodeOne` consumes at least one byte, so `l.length` fuel is enough). -/
def utf8DecodeAux : Nat → List Nat → Option (List Nat)
  | _, [] => some []
  | 0, _ :: _ => none
  | fuel + 1, b0 :: t =>
    match decodeOne (b0 :: t) with
    | none => none
    | some (c, rest) => (utf8DecodeAux fuel rest).map (fun cs => c :: cs)

/-- Python's strict `bytes.decode()` (UTF-8): `some` list of code points, or
`none` when the bytes are not valid UTF-8 (Python raises `UnicodeDecodeError`). -/
def utf8Decode (l : List Nat) : Option (List Nat) :=
  utf8DecodeAux l.length l

/-- UTF-8 encoding of one code point (shortest form). -/
def utf8EncodeChar (c : Nat) : List Nat :=
  if c < 0x80 then [c]
  else if c < 0x800 then [0xC0 + c / 64, 0x80 + c % 64]
  else if c < 0x10000 then
    [0xE0 + c / 4096, 0x80 + (c / 64) % 64, 0x80 + c % 64]
  else
    [0xF0 + c / 262144, 0x80 + (c / 4096) % 64, 0x80 + (c / 64) % 64,
     0x80 + c % 64]

/-- Python's `str.encode()` (UTF-8) over a list of code points. -/
def utf8Encode (cs : List Nat) : List Nat :=
  (cs.map utf8EncodeChar).flatten

theorem utf8Encode_cons (c : Nat) (cs : List Nat) :
    utf8Encode (c :: cs) = utf8EncodeChar c ++ utf8Encode cs := by
  simp [utf8Encode]

theorem utf8Encode_append (a b : List Nat) :
    utf8Encode (a ++ b) = utf8Encode a ++ utf8Encode b := by
  simp [utf8Encode]

/-- Re-encoding the code point produced by one decoding step restores exactly
the bytes that step consumed. -/
theorem decodeOne_encode (l : List Nat) (c : Nat) (rest : List Nat)
    (h : decodeOne l = some (c, rest)) : utf8EncodeChar c ++ rest = l := by
  match l with
  | [] => simp [decodeOne] at h
  | [b0] =>
    simp only [decodeOne] at h
    split_ifs at h <;>
      first
      | exact Option.noConfusion h
      | (injection h with h2; injection h2 with hc hr; subst hc; subst hr;
         simp only [utf8EncodeChar]; split_ifs <;>
           simp only [List.cons_append, List.nil_append, List.cons.injEq,
             and_true, true_and, List.cons_ne_nil] <;> omega)
  | [b0, b1] =>
    simp only [decodeOne] at h
    split_ifs at h <;>
      first
      | exact Option.noConfusion h
      | (injection h with h2; injection h2 with hc hr; subst hc; subst hr;
         simp only [utf8EncodeChar]; split_ifs <;>
           simp only [List.cons_append, List.nil_append, List.cons.injEq,
             and_true, true_and, List.cons_ne_nil] <;> omega)
  | [b0, b1, b2] =>
    simp only [decodeOne] at h
    split_ifs at h <;>
      first
      | exact Option.noConfusion h
      | (injection h with h2; injection h2 with hc hr; subst hc; subst hr;
         simp only [utf8EncodeChar]; split_ifs <;>
           simp only [List.cons_append, List.nil_append, List.cons.injEq,
             and_true, true_and, List.cons_ne_nil] <;> omega)
  | b0 :: b1 :: b2 :: b3 :: r =>
    simp only [decodeOne] at h
    split_ifs at h <;>
      first
      | exact Option.noConfusion h
      | (injection h with h2; injection h2 with hc hr; subst hc; subst hr;
         simp only [utf8EncodeChar]; split_ifs <;>
           simp only [List.cons_append, List.nil_append, List.cons.injEq,
             and_true, true_and, List.cons_ne_nil] <;> omega)

/-- Re-encoding a successfully decoded byte list restores it verbatim. -/
theorem utf8DecodeAux_encode :
    ∀ (fuel : Nat) (l cs : List Nat), utf8DecodeAux fuel l = some cs →
      utf8Encode cs = l := by
  intro fuel
  induction fuel with
  | zero =>
    intro l cs h
    match l with
    | [] =>
      simp only [utf8DecodeAux] at h
      injection h with h2
      subst h2
      rfl
    | b0 :: t => simp [utf8DecodeAux] at h
  | succ n ih =>
    intro l cs h
    match l with
    | [] =>
      simp only [utf8DecodeAux] at h
      injection h with h2
      subst h2
      rfl
    | b0 :: t =>
      simp only [utf8DecodeAux] at h
      cases hd : decodeOne (b0 :: t) with
      | none => rw [hd] at h; exact Option.noConfusion h
      | some p =>
        obtain ⟨c, rest⟩ := p
        rw [hd] at h
        simp only [Option.map_eq_some'] at h
        obtain ⟨cs2, hcs2, rfl⟩ := h
        rw [utf8Encode_cons, ih rest cs2 hcs2]
        exact decodeOne_encode _ _ _ hd

/-- Round trip: Python's `buffer_data.decode()` followed by `.encode()`
reproduces the received bytes exactly. -/
theorem utf8Decode_encode (l cs : List Nat) (h : utf8Decode l = some cs) :
    utf8Encode cs = l :=
  utf8DecodeAux_encode l.length l cs h

/-! ## Data model of the server (src/main.py) -/

/-- OS-level faults that `sock_recv` / socket operations can raise. -/
inductive OsErr where
  | connectionReset
  | notConnected
deriving DecidableEq

/-- The Python exceptions that can propagate out of the server's code:
`KeyError` from the selector's `register`/`unregister`, `UnicodeDecodeError`
from `bytes.decode()`, and OS errors from socket calls. -/
inductive PyError where
  | keyError
  | unicodeDecodeError
  | osError (e : OsErr)
deriving DecidableEq

/-- Code points of a Lean string literal, used for the log and payload text
the source builds with f-strings. -/
def strBytes (s : String) : List Nat :=
  s.data.map Char.toNat

/-- An accepted client connection socket: its file descriptor and the peer
address (`getpeername()`) as the code points of its textual form. -/
structure Conn where
  fd : Nat
  peer : List Nat
deriving DecidableEq

/-- A socket object registrable with the selector: the listening socket or a
client connection socket. -/
inductive Sock where
  | listener (fd : Nat)
  | conn (c : Conn)
deriving DecidableEq

/-- The OS file descriptor of a socket object. -/
def Sock.fd : Sock → Nat
  | .listener fd => fd
  | .conn c => c.fd

/-- The selector's registration table: each entry is a watched socket object
with the opaque tag passed as `data=` (the selector key's `.data`). -/
abbrev Selector := List (Sock × String)

/-- The file descriptors currently registered with the selector. -/
def selFds (sel : Selector) : List Nat :=
  sel.map (fun e => Sock.fd e.1)

/-- Modelled from the spec: the readiness multiplexer is Python's stdlib
`selectors.DefaultSelector`, whose code is not part of src/.  Per the spec,
`register(descriptor, interest, tag)` adds a watch and fails with a
duplicate-registration error (`KeyError`) if the descriptor is already
watched. -/
def register (sel : Selector) (sock : Sock) (tag : String) :
    Except PyError Selector :=
  if Sock.fd sock ∈ selFds sel then .error .keyError
  else .ok (sel ++ [(sock, tag)])

/-- Modelled from the spec: `unregister(descriptor)` removes the watch and
fails with a not-registered error (`KeyError`) if the descriptor is absent. -/
def unregister (sel : Selector) (fd : Nat) : Except PyError Selector :=
  if fd ∈ selFds sel then
    .ok (sel.filter (fun e => Sock.fd e.1 != fd))
  else .error .keyError

/-- One observable step of the server: socket I/O, selector bookkeeping and
log messages, in program order.  `dispatchAct` marks the dispatch loop
handing a ready selector key to its handler; `pollAct` records one
`selector.select(timeout)` call (`none` would be an unbounded wait). -/
inductive Action where
  | logInfo (msg : List Nat)
  | logError (msg : List Nat)
  | recvAct (fd : Nat) (bs : List Nat)
  | sendAct (fd : Nat) (bs : List Nat)
  | regAct (fd : Nat) (tag : String)
  | unregAct (fd : Nat)
  | closeAct (fd : Nat)
  | acceptAct (fd : Nat) (peer : List Nat)
  | dispatchAct (fd : Nat) (tag : String)
  | pollAct (timeout : Option ℚ)
deriving DecidableEq

/-- The whole-server state: the selector's table, the listening socket's
descriptor, the set of accepted and not-yet-closed connection sockets, and
the next fresh descriptor the OS will hand out. -/
structure ServerState where
  sel : Selector
  listenerFd : Nat
  openConns : List Conn
  nextFd : Nat
deriving DecidableEq

/-- The environment of one dispatch-loop iteration: which registered
descriptors the OS reports ready, what `sock_recv` returns on each connection
(bytes, or the OS fault it raises), and the peer address of a newly accepted
connection. -/
structure Env where
  readyFds : List Nat
  recvData : Nat → Except OsErr (List Nat)
  peerOf : Nat → List Nat

/-- `process_client_io` (src/main.py lines 84-107): one read-echo-or-close
cycle on a connection socket.  Returns the actions performed in order, and
either the updated selector and open-socket set or the exception that
propagated (the code has no try/except).  The 1024-byte cap of `sock_recv`
is reflected in the environment's choice of `recvResult`. -/
def process_client_io (c : Conn) (recvResult : Except OsErr (List Nat))
    (sel : Selector) (conns : List Conn) :
    List Action × Except PyError (Selector × List Conn) :=
  match recvResult with
  | .error e => ([], .error (.osError e))
  | .ok buffer_data =>
    if buffer_data = [] then
      match unregister sel c.fd with
      | .ok sel2 =>
        ([.recvAct c.fd buffer_data,
          .logInfo (strBytes "Closing connection to " ++ c.peer),
          .unregAct c.fd, .closeAct c.fd],
         .ok (sel2, conns.filter (fun c2 => c2.fd != c.fd)))
      | .error e =>
        ([.recvAct c.fd buffer_data,
          .logInfo (strBytes "Closing connection to " ++ c.peer)],
         .error e)
    else
      match utf8Decode buffer_data with
      | none => ([.recvAct c.fd buffer_data], .error .unicodeDecodeError)
      | some decoded =>
        ([.recvAct c.fd buffer_data,
          .logInfo (strBytes "Client=" ++ c.peer ++
            strBytes " | Received: " ++ decoded),
          .sendAct c.fd (utf8Encode (strBytes "Client=" ++ c.peer ++
            strBytes "| Echo: " ++ decoded))],
         .ok (sel, conns))

/-- `accept_client` (src/main.py lines 60-81) followed by the logging the
`"client_connected"` arm of `main` performs: accept the pending connection
(a fresh descriptor), set it non-blocking, register it under
`"data_received"`, then log the new peer twice. -/
def acceptStep (s : ServerState) (peer : List Nat) :
    List Action × Except PyError ServerState :=
  let fd := s.nextFd
  match register s.sel (.conn ⟨fd, peer⟩) "data_received" with
  | .ok sel2 =>
    ([.acceptAct fd peer, .regAct fd "data_received",
      .logInfo (strBytes "Received connection from " ++ peer),
      .logInfo (strBytes "Connected to client " ++ peer)],
     .ok { s with
            sel := sel2
            openConns := s.openConns ++ [⟨fd, peer⟩]
            nextFd := fd + 1 })
  | .error e => ([.acceptAct fd peer], .error e)

/-- The `match key.data` dispatch in `main` (src/main.py lines 117-140) for
one ready selector key. -/
def handleKey (s : ServerState) (env : Env) (key : Sock × String) :
    List Action × Except PyError ServerState :=
  let rest :
      List Action × Except PyError ServerState :=
    if key.2 = "client_connected" then
      acceptStep s (env.peerOf s.nextFd)
    else if key.2 = "data_received" then
      match key.1 with
      | .conn c =>
        match process_client_io c (env.recvData c.fd) s.sel s.openConns with
        | (as, .ok (sel2, conns2)) =>
          (as, .ok { s with sel := sel2, openConns := conns2 })
        | (as, .error e) => (as, .error e)
      | .listener _ => ([], .error (.osError .notConnected))
    else
      ([.logError (strBytes "Unknown event: " ++ strBytes key.2)], .ok s)
  (.dispatchAct (Sock.fd key.1) key.2 :: rest.1, rest.2)

/-- The ready keys one `selector.select` call returns: the registered entries
whose descriptor the OS reports ready, each at most once, in table order. -/
def readyKeys (sel : Selector) (ready : List Nat) : List (Sock × String) :=
  sel.filter (fun e => ready.contains (Sock.fd e.1))

/-- The `for key, _ in events` loop body of `main`: handle each ready key of
the batch in delivery order; an exception anywhere aborts the whole loop
(the code has no per-connection catch). -/
def runKeys (s : ServerState) (env : Env) :
    List (Sock × String) → List Action × Except PyError ServerState
  | [] => ([], .ok s)
  | k :: ks =>
    match handleKey s env k with
    | (as, .ok s2) =>
      match runKeys s2 env ks with
      | (as2, r) => (as ++ as2, r)
    | (as, .error e) => (as, .error e)

/-- One iteration of `while True` in `main`: poll the selector with the
bounded 0.1-second timeout, then consume the entire returned batch. -/
def loopIter (s : ServerState) (env : Env) :
    List Action × Except PyError ServerState :=
  match runKeys s env (readyKeys s.sel env.readyFds) with
  | (as, r) => (.pollAct (some (1 / 10 : ℚ)) :: as, r)

/-- Finitely many iterations of the dispatch loop (the loop itself is
infinite; an exception in an iteration terminates it). -/
def runLoop (s : ServerState) : List Env → List Action × Except PyError ServerState
  | [] => ([], .ok s)
  | env :: envs =>
    match loopIter s env with
    | (as, .ok s2) =>
      match runLoop s2 envs with
      | (as2, r) => (as ++ as2, r)
    | (as, .error e) => (as, .error e)

/-- The setup half of `server_socket` (src/main.py lines 42-51): create the
listening socket, bind, set non-blocking, register under
`"client_connected"`. -/
def server_socket_open (fd : Nat) : List Action × Except PyError ServerState :=
  match register [] (.listener fd) "client_connected" with
  | .ok sel => ([.regAct fd "client_connected"], .ok ⟨sel, fd, [], fd + 1⟩)
  | .error e => ([], .error e)

/-- The `finally` half of `server_socket` (src/main.py lines 55-57):
unregister the listening socket from the selector, then close it. -/
def server_socket_close (s : ServerState) :
    List Action × Except PyError Selector :=
  match unregister s.sel s.listenerFd with
  | .ok sel2 => ([.unregAct s.listenerFd, .closeAct s.listenerFd], .ok sel2)
  | .error e => ([], .error e)

/-! ## Trace predicates and the registration invariant -/

/-- Ghost tracking of the registered-descriptor set along a trace. -/
def applyAct (fds : List Nat) : Action → List Nat
  | .regAct fd _ => fds ++ [fd]
  | .unregAct fd => fds.filter (fun g => g != fd)
  | _ => fds

/-- Sequential check over a trace, starting from the registered set `fds`:
every read and every write targets a descriptor registered at that moment,
and a descriptor is closed only while unregistered. -/
def actsOkB (fds : List Nat) : List Action → Bool
  | [] => true
  | a :: rest =>
    (match a with
     | .recvAct fd _ => decide (fd ∈ fds)
     | .sendAct fd _ => decide (fd ∈ fds)
     | .closeAct fd => decide (fd ∉ fds)
     | _ => true) && actsOkB (applyAct fds a) rest

/-- Automaton state: the descriptor of an immediately preceding `unregAct`,
if any. -/
def unregSt : Option Nat → Action → Option Nat
  | _, .unregAct fd => some fd
  | _, _ => none

/-- Every `closeAct fd` in the trace comes immediately after `unregAct fd`:
the OS resource is released only right after the selector watch is removed. -/
def closeAfterUnregAux : Option Nat → List Action → Bool
  | _, [] => true
  | last, .closeAct fd :: rest =>
    (last == some fd) && closeAfterUnregAux none rest
  | _, .unregAct fd :: rest => closeAfterUnregAux (some fd) rest
  | _, _ :: rest => closeAfterUnregAux none rest

/-- `closeAfterUnregAux` from the empty automaton state. -/
def closeAfterUnregB (as : List Action) : Bool :=
  closeAfterUnregAux none as

/-- No `selector.select` call occurs inside the trace. -/
def noPollB (as : List Action) : Bool :=
  as.all (fun a => match a with | .pollAct _ => false | _ => true)

/-- The trace never reads from or writes to descriptor `fd`. -/
def noTouchB (fd : Nat) (as : List Action) : Bool :=
  as.all (fun a =>
    match a with
    | .recvAct fd2 _ => fd2 != fd
    | .sendAct fd2 _ => fd2 != fd
    | _ => true)

/-- The ready keys the dispatch loop handed to handlers, in trace order. -/
def dispatches (as : List Action) : List (Nat × String) :=
  as.filterMap (fun a =>
    match a with
    | .dispatchAct fd tag => some (fd, tag)
    | _ => none)

/-- A registered entry is well-formed for state `s`: the listening socket
under the accept tag, or an open (not closed) connection socket under the
service tag. -/
def entryOk (s : ServerState) : Sock × String → Prop
  | (.listener fd, tag) => fd = s.listenerFd ∧ tag = "client_connected"
  | (.conn c, tag) => tag = "data_received" ∧ c ∈ s.openConns

instance entryOkDecidable (s : ServerState) :
    (e : Sock × String) → Decidable (entryOk s e)
  | (.listener _, _) => inferInstanceAs (Decidable (_ ∧ _))
  | (.conn _, _) => inferInstanceAs (Decidable (_ ∧ _))

/-- The connection-management invariant of the dispatch loop: at most one
registration per descriptor, every registration is the listening socket or a
currently open connection socket, and every live descriptor is below the next
fresh one. -/
structure ServerInv (s : ServerState) : Prop where
  nodup : (selFds s.sel).Nodup
  entries : ∀ e ∈ s.sel, entryOk s e
  fdsLt : ∀ fd ∈ selFds s.sel, fd < s.nextFd
  listenerLt : s.listenerFd < s.nextFd
  connsLt : ∀ c ∈ s.openConns, c.fd < s.nextFd

instance (s : ServerState) : Decidable (ServerInv s) :=
  decidable_of_iff
    ((selFds s.sel).Nodup ∧ (∀ e ∈ s.sel, entryOk s e) ∧
      (∀ fd ∈ selFds s.sel, fd < s.nextFd) ∧ s.listenerFd < s.nextFd ∧
      (∀ c ∈ s.openConns, c.fd < s.nextFd))
    ⟨fun h => ⟨h.1, h.2.1, h.2.2.1, h.2.2.2.1, h.2.2.2.2⟩,
     fun h => ⟨h.nodup, h.entries, h.fdsLt, h.listenerLt, h.connsLt⟩⟩

theorem mem_selFds_of_mem {sel : Selector} {k : Sock × String}
    (hk : k ∈ sel) : Sock.fd k.1 ∈ selFds sel :=
  List.mem_map_of_mem _ hk

theorem fresh_not_mem {s : ServerState} (hInv : ServerInv s) :
    s.nextFd ∉ selFds s.sel :=
  fun h => absurd (hInv.fdsLt _ h) (lt_irrefl _)

theorem selFds_append (a b : Selector) :
    selFds (a ++ b) = selFds a ++ selFds b := by
  simp [selFds]

theorem selFds_filter (sel : Selector) (fd : Nat) :
    selFds (sel.filter (fun e => Sock.fd e.1 != fd)) =
      (selFds sel).filter (fun g => g != fd) := by
  induction sel with
  | nil => rfl
  | cons e t ih =>
    simp only [selFds, List.map_cons, List.filter_cons]
    cases h : (Sock.fd e.1 != fd) <;>
      simpa [selFds, h] using congrArg (fun l => l) ih

/-! ## Composition of the trace predicates over appended traces -/

theorem actsOkB_append (fds : List Nat) (as bs : List Action) :
    actsOkB fds (as ++ bs) =
      (actsOkB fds as && actsOkB (as.foldl applyAct fds) bs) := by
  induction as generalizing fds with
  | nil => simp [actsOkB]
  | cons a as ih => simp [actsOkB, ih, Bool.and_assoc]

theorem closeAux_append (st : Option Nat) (as bs : List Action) :
    closeAfterUnregAux st (as ++ bs) =
      (closeAfterUnregAux st as &&
        closeAfterUnregAux (as.foldl unregSt st) bs) := by
  induction as generalizing st with
  | nil => simp [closeAfterUnregAux]
  | cons a as ih =>
    cases a <;> simp [closeAfterUnregAux, unregSt, ih, Bool.and_assoc]

theorem noPollB_append (as bs : List Action) :
    noPollB (as ++ bs) = (noPollB as && noPollB bs) := by
  simp [noPollB]

theorem noTouchB_append (fd : Nat) (as bs : List Action) :
    noTouchB fd (as ++ bs) = (noTouchB fd as && noTouchB fd bs) := by
  simp [noTouchB]

theorem dispatches_append (as bs : List Action) :
    dispatches (as ++ bs) = dispatches as ++ dispatches bs := by
  simp [dispatches]

/-! ## Computed forms of the dispatch of one ready key -/

theorem handleKey_accept (s : ServerState) (env : Env) (sock : Sock)
    (hfresh : s.nextFd ∉ selFds s.sel) :
    handleKey s env (sock, "client_connected") =
      ([.dispatchAct (Sock.fd sock) "client_connected",
        .acceptAct s.nextFd (env.peerOf s.nextFd),
        .regAct s.nextFd "data_received",
        .logInfo (strBytes "Received connection from " ++ env.peerOf s.nextFd),
        .logInfo (strBytes "Connected to client " ++ env.peerOf s.nextFd)],
       .ok { s with
             sel := s.sel ++
               [(.conn ⟨s.nextFd, env.peerOf s.nextFd⟩, "data_received")]
             openConns := s.openConns ++ [⟨s.nextFd, env.peerOf s.nextFd⟩]
             nextFd := s.nextFd + 1 }) := by
  simp [handleKey, acceptStep, register, Sock.fd, hfresh]

theorem handleKey_recvErr (s : ServerState) (env : Env) (c : Conn) (e : OsErr)
    (hr : env.recvData c.fd = .error e) :
    handleKey s env (.conn c, "data_received") =
      ([.dispatchAct c.fd "data_received"], .error (.osError e)) := by
  simp [handleKey, process_client_io, hr, Sock.fd]

theorem handleKey_close (s : ServerState) (env : Env) (c : Conn)
    (hr : env.recvData c.fd = .ok []) (hmem : c.fd ∈ selFds s.sel) :
    handleKey s env (.conn c, "data_received") =
      ([.dispatchAct c.fd "data_received", .recvAct c.fd [],
        .logInfo (strBytes "Closing connection to " ++ c.peer),
        .unregAct c.fd, .closeAct c.fd],
       .ok { s with
             sel := s.sel.filter (fun e2 => Sock.fd e2.1 != c.fd)
             openConns := s.openConns.filter (fun c2 => c2.fd != c.fd) }) := by
  simp [handleKey, process_client_io, hr, unregister, hmem, Sock.fd]

theorem handleKey_decodeErr (s : ServerState) (env : Env) (c : Conn)
    (b : List Nat) (hr : env.recvData c.fd = .ok b) (hb : b ≠ [])
    (hdec : utf8Decode b = none) :
    handleKey s env (.conn c, "data_received") =
      ([.dispatchAct c.fd "data_received", .recvAct c.fd b],
       .error .unicodeDecodeError) := by
  simp [handleKey, process_client_io, hr, hb, hdec, Sock.fd]

theorem handleKey_echo (s : ServerState) (env : Env) (c : Conn)
    (b d : List Nat) (hr : env.recvData c.fd = .ok b) (hb : b ≠ [])
    (hdec : utf8Decode b = some d) :
    handleKey s env (.conn c, "data_received") =
      ([.dispatchAct c.fd "data_received", .recvAct c.fd b,
        .logInfo (strBytes "Client=" ++ c.peer ++
          strBytes " | Received: " ++ d),
        .sendAct c.fd (utf8Encode (strBytes "Client=" ++ c.peer ++
          strBytes "| Echo: " ++ d))],
       .ok s) := by
  simp [handleKey, process_client_io, hr, hb, hdec, Sock.fd]

theorem handleKey_listener (s : ServerState) (env : Env) (fd : Nat) :
    handleKey s env (.listener fd, "data_received") =
      ([.dispatchAct fd "data_received"],
       .error (.osError .notConnected)) := by
  simp [handleKey, Sock.fd]

theorem handleKey_unknown (s : ServerState) (env : Env) (sock : Sock)
    (tag : String) (h1 : tag ≠ "client_connected")
    (h2 : tag ≠ "data_received") :
    handleKey s env (sock, tag) =
      ([.dispatchAct (Sock.fd sock) tag,
        .logError (strBytes "Unknown event: " ++ strBytes tag)], .ok s) := by
  simp [handleKey, h1, h2]

/-! ## Preservation of the invariant by each state change -/

theorem entryOk_carry (s s2 : ServerState)
    (hl : s2.listenerFd = s.listenerFd)
    (hc : ∀ c : Conn, c ∈ s.openConns → c ∈ s2.openConns)
    (e : Sock × String) (h : entryOk s e) : entryOk s2 e := by
  obtain ⟨sock, tag⟩ := e
  cases sock with
  | listener fd =>
    simp only [entryOk] at h ⊢
    exact ⟨hl ▸ h.1, h.2⟩
  | conn c =>
    simp only [entryOk] at h ⊢
    exact ⟨h.1, hc c h.2⟩

theorem serverInv_accept (s : ServerState) (hInv : ServerInv s)
    (peer : List Nat) (s2 : ServerState)
    (hsel : s2.sel = s.sel ++ [(.conn ⟨s.nextFd, peer⟩, "data_received")])
    (hoc : s2.openConns = s.openConns ++ [⟨s.nextFd, peer⟩])
    (hl : s2.listenerFd = s.listenerFd)
    (hn : s2.nextFd = s.nextFd + 1) : ServerInv s2 := by
  refine ⟨?_, ?_, ?_, ?_, ?_⟩
  · rw [hsel, selFds_append]
    refine List.Nodup.append hInv.nodup (by simp [selFds, Sock.fd]) ?_
    intro fd hfd hfd2
    simp [selFds, Sock.fd] at hfd2
    exact fresh_not_mem hInv (hfd2 ▸ hfd)
  · intro e he
    rw [hsel] at he
    rcases List.mem_append.mp he with h | h
    · refine entryOk_carry s s2 hl ?_ e (hInv.entries e h)
      intro c hc
      rw [hoc]
      exact List.mem_append_left _ hc
    · simp only [List.mem_singleton] at h
      subst h
      refine ⟨rfl, ?_⟩
      rw [hoc]
      exact List.mem_append_right _ (List.mem_singleton.mpr rfl)
  · intro fd hfd
    rw [hsel, selFds_append] at hfd
    rw [hn]
    rcases List.mem_append.mp hfd with h | h
    · exact Nat.lt_succ_of_lt (hInv.fdsLt fd h)
    · simp [selFds, Sock.fd] at h
      omega
  · rw [hl, hn]
    exact Nat.lt_succ_of_lt hInv.listenerLt
  · intro c hc
    rw [hoc] at hc
    rw [hn]
    rcases List.mem_append.mp hc with h | h
    · exact Nat.lt_succ_of_lt (hInv.connsLt c h)
    · simp only [List.mem_singleton] at h
      subst h
      exact Nat.lt_succ_self _

theorem serverInv_close (s : ServerState) (hInv : ServerInv s) (fd0 : Nat)
    (s2 : ServerState)
    (hsel : s2.sel = s.sel.filter (fun e2 => Sock.fd e2.1 != fd0))
    (hoc : s2.openConns = s.openConns.filter (fun c2 => c2.fd != fd0))
    (hl : s2.listenerFd = s.listenerFd)
    (hn : s2.nextFd = s.nextFd) : ServerInv s2 := by
  refine ⟨?_, ?_, ?_, ?_, ?_⟩
  · rw [hsel, selFds_filter]
    exact hInv.nodup.filter _
  · intro e he
    rw [hsel] at he
    obtain ⟨hmem, hp⟩ := List.mem_filter.mp he
    have h0 := hInv.entries e hmem
    obtain ⟨sock, tag⟩ := e
    cases sock with
    | listener fd =>
      simp only [entryOk] at h0 ⊢
      exact ⟨hl ▸ h0.1, h0.2⟩
    | conn c =>
      simp only [entryOk] at h0 ⊢
      refine ⟨h0.1, ?_⟩
      rw [hoc]
      refine List.mem_filter.mpr ⟨h0.2, ?_⟩
      simpa [Sock.fd] using hp
  · intro fd hfd
    rw [hsel, selFds_filter] at hfd
    rw [hn]
    exact hInv.fdsLt fd (List.mem_of_mem_filter hfd)
  · rw [hl, hn]
    exact hInv.listenerLt
  · intro c hc
    rw [hoc] at hc
    rw [hn]
    exact hInv.connsLt c (List.mem_of_mem_filter hc)

/-! ## All facts about the dispatch of one ready key -/

theorem handleKey_facts (s : ServerState) (env : Env) (k : Sock × String)
    (hInv : ServerInv s) (hk : k ∈ s.sel) :
    actsOkB (selFds s.sel) (handleKey s env k).1 = true ∧
    closeAfterUnregAux none (handleKey s env k).1 = true ∧
    (handleKey s env k).1.foldl unregSt none = none ∧
    noPollB (handleKey s env k).1 = true ∧
    (∀ fd, fd ∉ selFds s.sel → noTouchB fd (handleKey s env k).1 = true) ∧
    dispatches (handleKey s env k).1 = [(Sock.fd k.1, k.2)] ∧
    (handleKey s env k).2 ≠ .error .keyError ∧
    (∀ s2, (handleKey s env k).2 = .ok s2 →
      ServerInv s2 ∧
      (handleKey s env k).1.foldl applyAct (selFds s.sel) = selFds s2.sel ∧
      s.nextFd ≤ s2.nextFd ∧
      s2.listenerFd = s.listenerFd ∧
      (∀ k2 ∈ s.sel, Sock.fd k2.1 ≠ Sock.fd k.1 → k2 ∈ s2.sel) ∧
      (∀ fd, fd ∉ selFds s.sel → fd < s.nextFd → fd ∉ selFds s2.sel)) := by
  obtain ⟨sock, tag⟩ := k
  by_cases h1 : tag = "client_connected"
  · subst h1
    rw [handleKey_accept s env sock (fresh_not_mem hInv)]
    refine ⟨by simp [actsOkB, applyAct], by simp [closeAfterUnregAux],
      by simp [unregSt], by simp [noPollB],
      fun fd hfd => by simp [noTouchB], by simp [dispatches], by simp, ?_⟩
    intro s2 hs2
    simp only [Except.ok.injEq] at hs2
    subst hs2
    refine ⟨serverInv_accept s hInv _ _ rfl rfl rfl rfl, ?_, Nat.le_succ _,
      rfl, ?_, ?_⟩
    · simp [applyAct, selFds_append, selFds, Sock.fd]
    · intro k2 hk2 hne
      exact List.mem_append_left _ hk2
    · intro fd hfd hlt
      simp only [selFds_append]
      rw [List.mem_append]
      rintro (h | h)
      · exact hfd h
      · simp [selFds, Sock.fd] at h
        omega
  · by_cases h2 : tag = "data_received"
    · subst h2
      cases sock with
      | listener fd0 =>
        rw [handleKey_listener s env fd0]
        refine ⟨by simp [actsOkB], by simp [closeAfterUnregAux],
          by simp [unregSt], by simp [noPollB],
          fun fd hfd => by simp [noTouchB], by simp [dispatches, Sock.fd],
          by simp, ?_⟩
        intro s2 hs2
        exact Except.noConfusion hs2
      | conn c =>
        have hmem : c.fd ∈ selFds s.sel := mem_selFds_of_mem hk
        cases hr : env.recvData c.fd with
        | error e =>
          rw [handleKey_recvErr s env c e hr]
          refine ⟨by simp [actsOkB], by simp [closeAfterUnregAux],
            by simp [unregSt], by simp [noPollB],
            fun fd hfd => by simp [noTouchB], by simp [dispatches, Sock.fd],
            by simp, ?_⟩
          intro s2 hs2
          exact Except.noConfusion hs2
        | ok b =>
          by_cases hb : b = []
          · subst hb
            rw [handleKey_close s env c hr hmem]
            refine ⟨?_, by simp [closeAfterUnregAux], by simp [unregSt],
              by simp [noPollB], ?_, by simp [dispatches, Sock.fd],
              by simp, ?_⟩
            · simp [actsOkB, applyAct, hmem, List.mem_filter]
            · intro fd hfd
              have hne : c.fd ≠ fd := fun h => hfd (h ▸ hmem)
              simp [noTouchB, hne]
            · intro s2 hs2
              simp only [Except.ok.injEq] at hs2
              subst hs2
              refine ⟨serverInv_close s hInv c.fd _ rfl rfl rfl rfl, ?_,
                le_refl _, rfl, ?_, ?_⟩
              · simp [applyAct, selFds_filter]
              · intro k2 hk2 hne
                refine List.mem_filter.mpr ⟨hk2, ?_⟩
                simpa [Sock.fd] using hne
              · intro fd hfd hlt
                rw [selFds_filter]
                intro hmem2
                exact hfd (List.mem_of_mem_filter hmem2)
          · cases hdec : utf8Decode b with
            | none =>
              rw [handleKey_decodeErr s env c b hr hb hdec]
              refine ⟨by simp [actsOkB, applyAct, hmem],
                by simp [closeAfterUnregAux], by simp [unregSt],
                by simp [noPollB], ?_, by simp [dispatches, Sock.fd],
                by simp, ?_⟩
              · intro fd hfd
                have hne : c.fd ≠ fd := fun h => hfd (h ▸ hmem)
                simp [noTouchB, hne]
              · intro s2 hs2
                exact Except.noConfusion hs2
            | some d =>
              rw [handleKey_echo s env c b d hr hb hdec]
              refine ⟨by simp [actsOkB, applyAct, hmem],
                by simp [closeAfterUnregAux], by simp [unregSt],
                by simp [noPollB], ?_, by simp [dispatches, Sock.fd],
                by simp, ?_⟩
              · intro fd hfd
                have hne : c.fd ≠ fd := fun h => hfd (h ▸ hmem)
                simp [noTouchB, hne]
              · intro s2 hs2
                simp only [Except.ok.injEq] at hs2
                subst hs2
                refine ⟨hInv, by simp [applyAct], le_refl _, rfl,
                  fun k2 hk2 _ => hk2, fun fd hfd _ => hfd⟩
    · rw [handleKey_unknown s env sock tag h1 h2]
      refine ⟨by simp [actsOkB], by simp [closeAfterUnregAux],
        by simp [unregSt], by simp [noPollB],
        fun fd hfd => by simp [noTouchB], by simp [dispatches], by simp, ?_⟩
      intro s2 hs2
      simp only [Except.ok.injEq] at hs2
      subst hs2
      exact ⟨hInv, by simp [applyAct], le_refl _, rfl,
        fun k2 hk2 _ => hk2, fun fd hfd _ => hfd⟩

/-! ## All facts about one polled batch and about whole runs -/

theorem runKeys_facts (env : Env) :
    ∀ (ks : List (Sock × String)) (s : ServerState), ServerInv s →
      (∀ k ∈ ks, k ∈ s.sel) →
      (ks.map (fun k => Sock.fd k.1)).Nodup →
      actsOkB (selFds s.sel) (runKeys s env ks).1 = true ∧
      closeAfterUnregAux none (runKeys s env ks).1 = true ∧
      (runKeys s env ks).1.foldl unregSt none = none ∧
      noPollB (runKeys s env ks).1 = true ∧
      (∀ fd, fd ∉ selFds s.sel → fd < s.nextFd →
        noTouchB fd (runKeys s env ks).1 = true) ∧
      (runKeys s env ks).2 ≠ .error .keyError ∧
      (∀ s2, (runKeys s env ks).2 = .ok s2 →
        ServerInv s2 ∧
        (runKeys s env ks).1.foldl applyAct (selFds s.sel) = selFds s2.sel ∧
        s.nextFd ≤ s2.nextFd ∧
        s2.listenerFd = s.listenerFd ∧
        (∀ fd, fd ∉ selFds s.sel → fd < s.nextFd → fd ∉ selFds s2.sel) ∧
        dispatches (runKeys s env ks).1 =
          ks.map (fun k => (Sock.fd k.1, k.2))) := by
  intro ks
  induction ks with
  | nil =>
    intro s hInv _ _
    refine ⟨rfl, rfl, rfl, rfl, fun fd _ _ => rfl, by simp [runKeys], ?_⟩
    intro s2 hs2
    simp only [runKeys, Except.ok.injEq] at hs2
    subst hs2
    exact ⟨hInv, rfl, le_refl _, rfl, fun fd h _ => h, rfl⟩
  | cons k ks ih =>
    intro s hInv hks hnd
    have hkf := handleKey_facts s env k hInv (hks k (List.mem_cons_self k ks))
    rcases hH : handleKey s env k with ⟨as, r⟩
    rw [hH] at hkf
    obtain ⟨ha1, ha2, ha3, ha4, ha5, ha6, ha7, ha8⟩ := hkf
    cases r with
    | error e =>
      have hrun : runKeys s env (k :: ks) = (as, .error e) := by
        simp [runKeys, hH]
      rw [hrun]
      refine ⟨ha1, ha2, ha3, ha4, fun fd hfd _ => ha5 fd hfd, ?_, ?_⟩
      · simpa using ha7
      · intro s2 hs2
        exact Except.noConfusion hs2
    | ok sMid =>
      obtain ⟨hInv2, hfold, hle, hlst, hkeep, hdead⟩ := ha8 sMid rfl
      have hks2 : ∀ k2 ∈ ks, k2 ∈ sMid.sel := by
        intro k2 hk2
        refine hkeep k2 (hks k2 (List.mem_cons_of_mem k hk2)) ?_
        intro heq
        have : Sock.fd k.1 ∈ ks.map (fun k3 => Sock.fd k3.1) :=
          heq ▸ List.mem_map_of_mem _ hk2
        exact (List.nodup_cons.mp hnd).1 this
      have hih := ih sMid hInv2 hks2 (List.nodup_cons.mp hnd).2
      rcases hR : runKeys sMid env ks with ⟨as2, r2⟩
      rw [hR] at hih
      obtain ⟨hb1, hb2, hb3, hb4, hb5, hb6, hb7⟩ := hih
      have hrun : runKeys s env (k :: ks) = (as ++ as2, r2) := by
        simp [runKeys, hH, hR]
      rw [hrun]
      refine ⟨?_, ?_, ?_, ?_, ?_, ?_, ?_⟩
      · rw [actsOkB_append, ha1, hfold, hb1]
        rfl
      · rw [closeAux_append, ha2, ha3, hb2]
        rfl
      · rw [List.foldl_append, ha3, hb3]
      · rw [noPollB_append, ha4, hb4]
        rfl
      · intro fd hfd hlt
        rw [noTouchB_append, ha5 fd hfd,
          hb5 fd (hdead fd hfd hlt) (lt_of_lt_of_le hlt hle)]
        rfl
      · exact hb6
      · intro s3 hs3
        obtain ⟨hc1, hc2, hc3, hc4, hc5, hc6⟩ := hb7 s3 hs3
        refine ⟨hc1, ?_, le_trans hle hc3, hc4.trans hlst, ?_, ?_⟩
        · rw [List.foldl_append, hfold, hc2]
        · intro fd hfd hlt
          exact hc5 fd (hdead fd hfd hlt) (lt_of_lt_of_le hlt hle)
        · rw [dispatches_append, ha6, hc6, List.map_cons]
          rfl

theorem readyKeys_mem (sel : Selector) (ready : List Nat) :
    ∀ k ∈ readyKeys sel ready, k ∈ sel :=
  fun _ hk => List.mem_of_mem_filter hk

theorem readyKeys_nodup (sel : Selector) (ready : List Nat)
    (h : (selFds sel).Nodup) :
    ((readyKeys sel ready).map (fun k => Sock.fd k.1)).Nodup :=
  h.sublist ((List.filter_sublist sel).map _)

theorem runLoop_facts :
    ∀ (envs : List Env) (s : ServerState), ServerInv s →
      actsOkB (selFds s.sel) (runLoop s envs).1 = true ∧
      closeAfterUnregAux none (runLoop s envs).1 = true ∧
      (∀ fd, fd ∉ selFds s.sel → fd < s.nextFd →
        noTouchB fd (runLoop s envs).1 = true) ∧
      (runLoop s envs).2 ≠ .error .keyError ∧
      (∀ s2, (runLoop s envs).2 = .ok s2 →
        ServerInv s2 ∧
        s.nextFd ≤ s2.nextFd ∧
        s2.listenerFd = s.listenerFd ∧
        (∀ fd, fd ∉ selFds s.sel → fd < s.nextFd → fd ∉ selFds s2.sel)) := by
  intro envs
  induction envs with
  | nil =>
    intro s hInv
    refine ⟨rfl, rfl, fun fd _ _ => rfl, by simp [runLoop], ?_⟩
    intro s2 hs2
    simp only [runLoop, Except.ok.injEq] at hs2
    subst hs2
    exact ⟨hInv, le_refl _, rfl, fun fd h _ => h⟩
  | cons env envs ih =>
    intro s hInv
    have hbatch := runKeys_facts env (readyKeys s.sel env.readyFds) s hInv
      (readyKeys_mem s.sel env.readyFds)
      (readyKeys_nodup s.sel env.readyFds hInv.nodup)
    rcases hB : runKeys s env (readyKeys s.sel env.readyFds) with ⟨as, r⟩
    rw [hB] at hbatch
    obtain ⟨ha1, ha2, ha3, ha4, ha5, ha6, ha7⟩ := hbatch
    cases r with
    | error e =>
      have hrun : runLoop s (env :: envs) = (.pollAct (some (1 / 10 : ℚ)) :: as, .error e) := by
        simp [runLoop, loopIter, hB]
      rw [hrun]
      refine ⟨?_, ?_, ?_, ?_, ?_⟩
      · simpa [actsOkB, applyAct] using ha1
      · simpa [closeAfterUnregAux] using ha2
      · intro fd hfd hlt
        simpa [noTouchB] using ha5 fd hfd hlt
      · simpa using ha6
      · intro s2 hs2
        exact Except.noConfusion hs2
    | ok sMid =>
      obtain ⟨hInv2, hfold, hle, hlst, hdead, _⟩ := ha7 sMid rfl
      have hih := ih sMid hInv2
      rcases hR : runLoop sMid envs with ⟨as2, r2⟩
      rw [hR] at hih
      obtain ⟨hb1, hb2, hb3, hb4, hb5⟩ := hih
      have hrun : runLoop s (env :: envs) =
          (.pollAct (some (1 / 10 : ℚ)) :: as ++ as2, r2) := by
        simp [runLoop, loopIter, hB, hR]
      rw [hrun]
      refine ⟨?_, ?_, ?_, ?_, ?_⟩
      · have : actsOkB (selFds s.sel) (as ++ as2) = true := by
          rw [actsOkB_append, ha1, hfold, hb1]
          rfl
        simpa [actsOkB, applyAct] using this
      · have : closeAfterUnregAux none (as ++ as2) = true := by
          rw [closeAux_append, ha2, ha3, hb2]
          rfl
        simpa [closeAfterUnregAux] using this
      · intro fd hfd hlt
        have : noTouchB fd (as ++ as2) = true := by
          rw [noTouchB_append, ha5 fd hfd hlt,
            hb3 fd (hdead fd hfd hlt) (lt_of_lt_of_le hlt hle)]
          rfl
        simpa [noTouchB] using this
      · exact hb4
      · intro s2 hs2
        obtain ⟨hc1, hc2, hc3, hc4⟩ := hb5 s2 hs2
        refine ⟨hc1, le_trans hle hc2, hc3.trans hlst, ?_⟩
        intro fd hfd hlt
        exact hc4 fd (hdead fd hfd hlt) (lt_of_lt_of_le hlt hle)

/-! ## Sample concrete data for the closed corollaries -/

/-- A sample connection socket on descriptor 4. -/
def sampleConn : Conn := ⟨4, strBytes "(127.0.0.1, 50000)"⟩

/-- A sample server state: listening socket 3 registered for accept, one
accepted connection socket 4 registered for service. -/
def sampleState : ServerState :=
  ⟨[(.listener 3, "client_connected"), (.conn sampleConn, "data_received")],
   3, [sampleConn], 5⟩

/-- A sample iteration environment: descriptor 4 is the only ready one and
its `sock_recv` returns the two bytes "42". -/
def sampleEnv : Env :=
  ⟨[4], fun _ => .ok (strBytes "42"), fun _ => []⟩

/-- The environment of claim C3's failing input: descriptor 4 is reported
ready and its `sock_recv` raises `ConnectionResetError`. -/
def resetEnv : Env :=
  ⟨[4], fun _ => .error .connectionReset, fun _ => []⟩

/-! ## The claims -/

/-- Claim C1: for every non-empty byte sequence `b` delivered by a single
read on a connection (and decodable as UTF-8, which the claim's "UTF-8
decoded then re-encoded" presupposes; claim C10 covers the undecodable
case), the server's next and only write on that connection is exactly the
UTF-8 encoding of "Client=<peer-address>| Echo: " followed by `b` re-encoded
verbatim, sent in full as one `sock_sendall` payload: the whole action trace
of the cycle is the read, one log line, then that single write. -/
theorem claim_C1_echo_exact (c : Conn) (sel : Selector) (conns : List Conn)
    (b d : List Nat) (hb : b ≠ []) (hdec : utf8Decode b = some d) :
    process_client_io c (.ok b) sel conns =
      ([.recvAct c.fd b,
        .logInfo (strBytes "Client=" ++ c.peer ++
          strBytes " | Received: " ++ d),
        .sendAct c.fd (utf8Encode (strBytes "Client=" ++ c.peer ++
          strBytes "| Echo: ") ++ b)],
       .ok (sel, conns)) := by
  have hround := utf8Decode_encode b d hdec
  simp [process_client_io, hb, hdec, utf8Encode_append, hround,
    List.append_assoc]

theorem claim_C1_witness :
    (strBytes "42" ≠ [] ∧
      utf8Decode (strBytes "42") = some (strBytes "42")) ∧
    process_client_io sampleConn (.ok (strBytes "42")) sampleState.sel
        [sampleConn] =
      ([.recvAct 4 (strBytes "42"),
        .logInfo (strBytes "Client=" ++ sampleConn.peer ++
          strBytes " | Received: " ++ strBytes "42"),
        .sendAct 4 (utf8Encode (strBytes "Client=" ++ sampleConn.peer ++
          strBytes "| Echo: ") ++ strBytes "42")],
       .ok (sampleState.sel, [sampleConn])) :=
  ⟨⟨by decide, by decide⟩,
   claim_C1_echo_exact sampleConn sampleState.sel [sampleConn]
     (strBytes "42") (strBytes "42") (by decide) (by decide)⟩

/-- Claim C2: a read that returns exactly 0 bytes is handled as graceful
peer close, not an error: the cycle logs, unregisters the descriptor from
the selector, closes the handle (in that order, with no write action),
returns without an exception, and once the descriptor is unregistered no
later dispatch-loop work ever reads from or writes to it again. -/
theorem claim_C2_graceful_close (c : Conn) (sel : Selector)
    (conns : List Conn) (h : c.fd ∈ selFds sel) :
    process_client_io c (.ok []) sel conns =
      ([.recvAct c.fd [],
        .logInfo (strBytes "Closing connection to " ++ c.peer),
        .unregAct c.fd, .closeAct c.fd],
       .ok (sel.filter (fun e2 => Sock.fd e2.1 != c.fd),
            conns.filter (fun c2 => c2.fd != c.fd))) ∧
    (∀ (s : ServerState) (envs : List Env), ServerInv s →
      c.fd ∉ selFds s.sel → c.fd < s.nextFd →
      noTouchB c.fd (runLoop s envs).1 = true) := by
  constructor
  · simp [process_client_io, unregister, h]
  · intro s envs hInv hfd hlt
    exact (runLoop_facts envs s hInv).2.2.1 c.fd hfd hlt

theorem claim_C2_witness :
    sampleConn.fd ∈ selFds sampleState.sel ∧
    (process_client_io sampleConn (.ok []) sampleState.sel [sampleConn] =
      ([.recvAct 4 [],
        .logInfo (strBytes "Closing connection to " ++ sampleConn.peer),
        .unregAct 4, .closeAct 4],
       .ok (sampleState.sel.filter (fun e2 => Sock.fd e2.1 != 4),
            [sampleConn].filter (fun c2 => c2.fd != 4))) ∧
     (∀ (s : ServerState) (envs : List Env), ServerInv s →
       sampleConn.fd ∉ selFds s.sel → sampleConn.fd < s.nextFd →
       noTouchB sampleConn.fd (runLoop s envs).1 = true)) :=
  ⟨by decide,
   claim_C2_graceful_close sampleConn sampleState.sel [sampleConn]
     (by decide)⟩

/-- Claim C3 (the code violates it): neither `process_client_io` nor the
body of `main`'s dispatch loop has a try/except, so a transient I/O fault
raised while servicing one connection is not caught at the connection
boundary: run from a state with a registered connection whose `sock_recv`
raises `ConnectionResetError`, the whole dispatch loop terminates with the
propagated exception instead of logging it and closing only that
connection. -/
theorem claim_C3_fault_escapes :
    (runLoop sampleState [resetEnv]).2 =
      .error (.osError .connectionReset) ∧
    process_client_io sampleConn (.error .connectionReset)
        sampleState.sel [sampleConn] =
      ([], .error (.osError .connectionReset)) := by
  exact ⟨rfl, rfl⟩

/-- Claim C4: from any state satisfying the registration invariant, every
run of the dispatch loop (a) only reads or writes descriptors that are
registered at that instant and only closes unregistered ones, and (b)
preserves the invariant, so at every step boundary there is at most one
registration per descriptor and every registered descriptor is the
listening socket or a currently open, not-yet-closed connection socket. -/
theorem claim_C4_registration_invariant (s : ServerState) (envs : List Env)
    (h : ServerInv s) :
    (∀ (fd0 : Nat) (s0 : ServerState),
      (server_socket_open fd0).2 = .ok s0 →
      ServerInv s0 ∧ selFds s0.sel = [fd0]) ∧
    actsOkB (selFds s.sel) (runLoop s envs).1 = true ∧
    (∀ s2, (runLoop s envs).2 = .ok s2 →
      ServerInv s2 ∧ (selFds s2.sel).Nodup ∧
      (∀ fd ∈ selFds s2.sel,
        fd = s2.listenerFd ∨ fd ∈ s2.openConns.map Conn.fd)) := by
  refine ⟨?_, (runLoop_facts envs s h).1, ?_⟩
  · intro fd0 s0 hs0
    simp only [server_socket_open, register, selFds, List.map_nil,
      List.not_mem_nil, if_false, List.nil_append, Except.ok.injEq] at hs0
    subst hs0
    refine ⟨⟨?_, ?_, ?_, ?_, ?_⟩, ?_⟩
    · simp [selFds, Sock.fd]
    · intro e he
      simp only [List.mem_singleton] at he
      subst he
      exact ⟨rfl, rfl⟩
    · intro fd hfd
      simp only [selFds, Sock.fd, List.map_cons, List.map_nil,
        List.mem_singleton] at hfd
      subst hfd
      exact Nat.lt_succ_self _
    · exact Nat.lt_succ_self _
    · intro c hc
      simp at hc
    · simp [selFds, Sock.fd]
  intro s2 hs2
  have hInv2 := ((runLoop_facts envs s h).2.2.2.2 s2 hs2).1
  refine ⟨hInv2, hInv2.nodup, ?_⟩
  intro fd hfd
  obtain ⟨e, he, hfe⟩ := List.mem_map.mp hfd
  have hent := hInv2.entries e he
  obtain ⟨sock, tag⟩ := e
  cases sock with
  | listener f =>
    left
    simp only [entryOk] at hent
    rw [← hfe]
    simpa [Sock.fd] using hent.1
  | conn c2 =>
    right
    simp only [entryOk] at hent
    rw [← hfe]
    exact List.mem_map_of_mem _ hent.2

theorem claim_C4_witness :
    ServerInv sampleState ∧
    ((∀ (fd0 : Nat) (s0 : ServerState),
        (server_socket_open fd0).2 = .ok s0 →
        ServerInv s0 ∧ selFds s0.sel = [fd0]) ∧
      actsOkB (selFds sampleState.sel) (runLoop sampleState [sampleEnv]).1 =
        true ∧
      (∀ s2, (runLoop sampleState [sampleEnv]).2 = .ok s2 →
        ServerInv s2 ∧ (selFds s2.sel).Nodup ∧
        (∀ fd ∈ selFds s2.sel,
          fd = s2.listenerFd ∨ fd ∈ s2.openConns.map Conn.fd))) :=
  ⟨by decide, claim_C4_registration_invariant sampleState [sampleEnv]
    (by decide)⟩

/-- Claim C5 (spec-modelled: the multiplexer is Python's stdlib
`selectors`, not part of src/): registering an already-watched descriptor
fails with the duplicate-registration `KeyError`, unregistering an absent
one fails with the not-registered `KeyError`, each failure is confined to
the failing call (the success cases show the only table changes a call can
make), and in the server such a failure never terminates the dispatch
loop: from any invariant state the loop never ends with `KeyError`,
because every register/unregister it performs is correctly paired. -/
theorem claim_C5_registration_errors :
    (∀ (sel : Selector) (sock : Sock) (tag : String),
      Sock.fd sock ∈ selFds sel → register sel sock tag = .error .keyError) ∧
    (∀ (sel : Selector) (fd : Nat),
      fd ∉ selFds sel → unregister sel fd = .error .keyError) ∧
    (∀ (sel : Selector) (sock : Sock) (tag : String),
      Sock.fd sock ∉ selFds sel →
      register sel sock tag = .ok (sel ++ [(sock, tag)])) ∧
    (∀ (sel : Selector) (fd : Nat), fd ∈ selFds sel →
      unregister sel fd = .ok (sel.filter (fun e => Sock.fd e.1 != fd))) ∧
    (∀ (s : ServerState) (envs : List Env), ServerInv s →
      (runLoop s envs).2 ≠ .error .keyError) := by
  refine ⟨?_, ?_, ?_, ?_, ?_⟩
  · intro sel sock tag h
    simp [register, h]
  · intro sel fd h
    simp [unregister, h]
  · intro sel sock tag h
    simp [register, h]
  · intro sel fd h
    simp [unregister, h]
  · intro s envs h
    exact (runLoop_facts envs s h).2.2.2.1

/-- Claim C6: the connection close path tolerates the peer being already
gone: invoking the termination handling (the read having returned
end-of-stream because the peer closed) on a still-registered handle
completes the whole unregister-then-release sequence and returns without
raising. -/
theorem claim_C6_close_tolerant (c : Conn) (sel : Selector)
    (conns : List Conn) (h : c.fd ∈ selFds sel) :
    ∃ sel2 conns2,
      process_client_io c (.ok []) sel conns =
        ([.recvAct c.fd [],
          .logInfo (strBytes "Closing connection to " ++ c.peer),
          .unregAct c.fd, .closeAct c.fd],
         .ok (sel2, conns2)) := by
  refine ⟨sel.filter (fun e2 => Sock.fd e2.1 != c.fd),
    conns.filter (fun c2 => c2.fd != c.fd), ?_⟩
  simp [process_client_io, unregister, h]

theorem claim_C6_witness :
    sampleConn.fd ∈ selFds sampleState.sel ∧
    (∃ sel2 conns2,
      process_client_io sampleConn (.ok []) sampleState.sel [] =
        ([.recvAct 4 [],
          .logInfo (strBytes "Closing connection to " ++ sampleConn.peer),
          .unregAct 4, .closeAct 4],
         .ok (sel2, conns2))) :=
  ⟨by decide, claim_C6_close_tolerant sampleConn sampleState.sel []
    (by decide)⟩

/-- Claim C7: both for the listening endpoint and for every connection
handle, closing unregisters from the selector strictly before releasing
the OS descriptor: in every run from an invariant state each close action
comes immediately after the unregistration of the same descriptor and
never occurs while the descriptor is still registered, and
`server_socket`'s `finally` block performs exactly
unregister-then-close on the listening socket. -/
theorem claim_C7_unregister_before_close :
    (∀ (s : ServerState) (envs : List Env), ServerInv s →
      closeAfterUnregB (runLoop s envs).1 = true ∧
      actsOkB (selFds s.sel) (runLoop s envs).1 = true) ∧
    (∀ s : ServerState, s.listenerFd ∈ selFds s.sel →
      server_socket_close s =
        ([.unregAct s.listenerFd, .closeAct s.listenerFd],
         .ok (s.sel.filter (fun e => Sock.fd e.1 != s.listenerFd)))) := by
  constructor
  · intro s envs h
    exact ⟨(runLoop_facts envs s h).2.1, (runLoop_facts envs s h).1⟩
  · intro s h
    simp [server_socket_close, unregister, h]

/-- Claim C8: a ready entry whose tag is neither "client_connected" nor
"data_received" is non-fatal: the dispatch arm only logs an error message,
leaves the state unchanged and raises nothing, and the batch loop
continues with the remaining entries exactly as it would have without the
unknown entry. -/
theorem claim_C8_unknown_tag (s : ServerState) (env : Env) (sock : Sock)
    (tag : String) (h1 : tag ≠ "client_connected")
    (h2 : tag ≠ "data_received") :
    handleKey s env (sock, tag) =
      ([.dispatchAct (Sock.fd sock) tag,
        .logError (strBytes "Unknown event: " ++ strBytes tag)], .ok s) ∧
    (∀ ks : List (Sock × String),
      runKeys s env ((sock, tag) :: ks) =
        (.dispatchAct (Sock.fd sock) tag ::
          .logError (strBytes "Unknown event: " ++ strBytes tag) ::
          (runKeys s env ks).1,
         (runKeys s env ks).2)) := by
  refine ⟨handleKey_unknown s env sock tag h1 h2, ?_⟩
  intro ks
  rcases hR : runKeys s env ks with ⟨as2, r2⟩
  simp [runKeys, handleKey_unknown s env sock tag h1 h2, hR]

theorem claim_C8_witness :
    (("oops" : String) ≠ "client_connected" ∧
      ("oops" : String) ≠ "data_received") ∧
    (handleKey sampleState sampleEnv (.listener 3, "oops") =
      ([.dispatchAct 3 "oops",
        .logError (strBytes "Unknown event: " ++ strBytes "oops")],
       .ok sampleState) ∧
     (∀ ks : List (Sock × String),
       runKeys sampleState sampleEnv ((.listener 3, "oops") :: ks) =
         (.dispatchAct 3 "oops" ::
           .logError (strBytes "Unknown event: " ++ strBytes "oops") ::
           (runKeys sampleState sampleEnv ks).1,
          (runKeys sampleState sampleEnv ks).2))) :=
  ⟨⟨by decide, by decide⟩,
   claim_C8_unknown_tag sampleState sampleEnv (.listener 3) "oops"
     (by decide) (by decide)⟩

/-- Claim C9: every poll uses the bounded 0.1-second timeout, never an
unbounded wait, and each loop iteration consumes its entire readiness
batch in delivery order before the next poll: the iteration trace is the
poll action followed by the batch handling, no further poll occurs inside
it, on an exception-free batch the dispatched keys are exactly the batch
in delivery order, and the next poll comes only after the whole
iteration. -/
theorem claim_C9_batch_order :
    (∀ (s : ServerState) (env : Env),
      (loopIter s env).1 =
        .pollAct (some (1 / 10 : ℚ)) ::
          (runKeys s env (readyKeys s.sel env.readyFds)).1 ∧
      (loopIter s env).2 =
        (runKeys s env (readyKeys s.sel env.readyFds)).2) ∧
    (∀ (s : ServerState) (env : Env), ServerInv s →
      noPollB (runKeys s env (readyKeys s.sel env.readyFds)).1 = true ∧
      (∀ s2, (runKeys s env (readyKeys s.sel env.readyFds)).2 = .ok s2 →
        dispatches (runKeys s env (readyKeys s.sel env.readyFds)).1 =
          (readyKeys s.sel env.readyFds).map
            (fun k => (Sock.fd k.1, k.2)))) ∧
    (∀ (s : ServerState) (env : Env) (envs : List Env),
      (runLoop s (env :: envs)).1 =
        (loopIter s env).1 ++
          (match (loopIter s env).2 with
           | .ok s2 => (runLoop s2 envs).1
           | .error _ => [])) := by
  refine ⟨?_, ?_, ?_⟩
  · intro s env
    rcases hB : runKeys s env (readyKeys s.sel env.readyFds) with ⟨as, r⟩
    simp [loopIter, hB]
  · intro s env hInv
    have hb := runKeys_facts env (readyKeys s.sel env.readyFds) s hInv
      (readyKeys_mem _ _) (readyKeys_nodup _ _ hInv.nodup)
    exact ⟨hb.2.2.2.1,
      fun s2 hs2 => (hb.2.2.2.2.2.2 s2 hs2).2.2.2.2.2⟩
  · intro s env envs
    rcases hI : loopIter s env with ⟨as, r⟩
    cases r with
    | ok s2 => simp [runLoop, hI]
    | error e => simp [runLoop, hI]

/-- Claim C10: a non-empty received byte sequence that is not valid UTF-8
makes the decode step raise `UnicodeDecodeError` before any echo payload
is written: the cycle's trace is just the read, with no write action; and
conversely any cycle that performs a write decoded its input successfully,
so only UTF-8-decodable inputs are ever echoed. -/
theorem claim_C10_decode_guard (c : Conn) (sel : Selector)
    (conns : List Conn) (b : List Nat) (hb : b ≠ [])
    (hdec : utf8Decode b = none) :
    process_client_io c (.ok b) sel conns =
      ([.recvAct c.fd b], .error .unicodeDecodeError) ∧
    (∀ (r : Except OsErr (List Nat)) (fd : Nat) (bs : List Nat),
      .sendAct fd bs ∈ (process_client_io c r sel conns).1 →
      ∃ b2 d, r = .ok b2 ∧ utf8Decode b2 = some d) := by
  constructor
  · simp [process_client_io, hb, hdec]
  · intro r fd bs hmem
    match r with
    | .error e => simp [process_client_io] at hmem
    | .ok b2 =>
      by_cases hb2 : b2 = []
      · subst hb2
        cases hu : unregister sel c.fd with
        | ok sel2 => simp [process_client_io, hu] at hmem
        | error e => simp [process_client_io, hu] at hmem
      · cases hdec2 : utf8Decode b2 with
        | none => simp [process_client_io, hb2, hdec2] at hmem
        | some d => exact ⟨b2, d, rfl, hdec2⟩

theorem claim_C10_witness :
    (([255] : List Nat) ≠ [] ∧ utf8Decode [255] = none) ∧
    (process_client_io sampleConn (.ok [255]) sampleState.sel [sampleConn] =
      ([.recvAct 4 [255]], .error .unicodeDecodeError) ∧
     (∀ (r : Except OsErr (List Nat)) (fd : Nat) (bs : List Nat),
       .sendAct fd bs ∈
         (process_client_io sampleConn r sampleState.sel [sampleConn]).1 →
       ∃ b2 d, r = .ok b2 ∧ utf8Decode b2 = some d)) :=
  ⟨⟨by decide, by decide⟩,
   claim_C10_decode_guard sampleConn sampleState.sel [sampleConn] [255]
     (by decide) (by decide)⟩

end AsyncTcp
